import Mathlib

/-!
# Verification of `partpost` (particle-tracking post-processor)

Shallow embedding of `src/partpost/proc.py` and `src/partpost/cli.py`.

Modelling conventions:
* Python floats are modelled by `ℚ`; a possibly-non-finite float cell is
  `Option ℚ` (`none` = NaN).
* Python exceptions are modelled by `Except PyErr _` / the `raised`
  constructor of `RunOutcome`.
* `numpy` time values are modelled directly in seconds (the code converts
  both `datetime64` axes and object axes to consecutive differences in
  seconds before any arithmetic, `proc.py` lines 99-103 / 200-203).
* Python's `round` (used as `int(round(x))`, `proc.py` lines 106 / 206)
  rounds half to even; `pyRound` reproduces this.  `pandas.round("s")`
  rounds timestamps the same way to whole seconds.
-/

/- The Batteries rational-arithmetic primitives are sealed against
unfolding; re-open them so that concrete instances of the model can be
settled by kernel evaluation (`decide`). -/
set_option allowUnsafeReducibility true
attribute [semireducible] Rat.sub Rat.add Rat.mul Rat.inv

namespace Partpost

/-- Python exception kinds that the modelled code can raise. -/
inductive PyErr where
  | fileNotFound
  | zeroDivision
  | valueError
  | attributeError
  deriving DecidableEq

/-- A float cell: `none` models NaN (non-finite), `some q` a finite value. -/
abbrev FVal := Option ℚ

/-- Python `round` on a real number: round half to even
(`int(round(x))`, `proc.py` lines 106 and 206). -/
def pyRound (q : ℚ) : ℤ :=
  if q - ⌊q⌋ < 1 / 2 then ⌊q⌋
  else if 1 / 2 < q - ⌊q⌋ then ⌊q⌋ + 1
  else if ⌊q⌋ % 2 = 0 then ⌊q⌋ else ⌊q⌋ + 1

/-- `np.diff`: consecutive differences (`proc.py` lines 100/103, 201/203). -/
def diffs : List ℚ → List ℚ
  | a :: b :: rest => (b - a) :: diffs (b :: rest)
  | _ => []

/-- `np.median`: sort, take the middle element (odd length) or the mean of
the two middle elements (even length); `none` models the NaN that
`np.median` yields on an empty array (`proc.py` lines 105/205). -/
def npMedian (l : List ℚ) : Option ℚ :=
  if l = [] then none
  else
    let s := l.insertionSort (fun a b => a ≤ b)
    let n := l.length
    if n % 2 = 1 then some (s.getD (n / 2) 0)
    else some ((s.getD (n / 2 - 1) 0 + s.getD (n / 2) 0) / 2)

/-- Stride computation shared verbatim by both conversion routines
(`proc.py` lines 105-106 and 205-206):
`median_dt = float(np.median(dt_seconds)); step = max(1, int(round(downscale_seconds / median_dt)))`.
A zero median raises `ZeroDivisionError`; an empty diff list makes
`median_dt` NaN and `int(round(nan))` raises `ValueError`. -/
def computeStep (downscale_hours : ℚ) (times : List ℚ) : Except PyErr ℤ :=
  match npMedian (diffs times) with
  | none => Except.error PyErr.valueError
  | some m =>
    if m = 0 then Except.error PyErr.zeroDivision
    else Except.ok (max 1 (pyRound (downscale_hours * 3600 / m)))

/-- Helper for `subsample`: keep the current element when the countdown
is `0` (then restart it at `k - 1`), otherwise skip it. -/
def subsampleAux (k : ℕ) : ℕ → List α → List α
  | _, [] => []
  | 0, a :: rest => a :: subsampleAux k (k - 1) rest
  | n + 1, _ :: rest => subsampleAux k n rest

/-- `arr[::k]`: every `k`-th element starting at index 0
(`proc.py` lines 114-116 and 213-215). -/
def subsample (k : ℕ) (l : List α) : List α := subsampleAux k 0 l

instance {ε α : Type _} [DecidableEq ε] [DecidableEq α] :
    DecidableEq (Except ε α) := fun x y =>
  match x, y with
  | Except.ok a, Except.ok b =>
    if h : a = b then isTrue (by rw [h])
    else isFalse (fun hc => h (Except.ok.inj hc))
  | Except.ok _, Except.error _ => isFalse (fun hc => Except.noConfusion hc)
  | Except.error _, Except.ok _ => isFalse (fun hc => Except.noConfusion hc)
  | Except.error e, Except.error f =>
    if h : e = f then isTrue (by rw [h])
    else isFalse (fun hc => h (Except.error.inj hc))

/-- Masking one cell: `arr[arr == fill_val] = np.nan`
(`proc.py` lines 121-122 and 220-221).  Exact equality; a NaN cell stays
NaN (in numpy `nan == fill` is false, so it is left as NaN). -/
def maskCell (fill : ℚ) : FVal → FVal
  | none => none
  | some q => if q = fill then none else some q

/-- Masking a whole `[time, particle]` array. -/
def maskGrid (fill : ℚ) (g : List (List FVal)) : List (List FVal) :=
  g.map (fun row => row.map (maskCell fill))

/-- The input dataset: `particles_x_coordinate` / `particles_y_coordinate`
arrays indexed `[time][particle]`, the decoded time axis in seconds, and
the optional `_FillValue` attribute of each coordinate variable. -/
structure Dataset where
  lon : List (List FVal)
  lat : List (List FVal)
  times : List ℚ
  lonFill : Option ℚ
  latFill : Option ℚ

/-- `fill_val = lon.attrs.get("_FillValue", -999.0)`
(`proc.py` lines 95 and 194). -/
def fillValue (ds : Dataset) : ℚ := ds.lonFill.getD (-999)

/-- Column `p` of a `[time][particle]` grid (`lon_sub[:, pid]`). -/
def col (g : List (List FVal)) (p : ℕ) : List FVal :=
  g.map (fun row => row.getD p none)

/-- One emitted particle track (`proc.py` lines 143-146): the polyline
coordinates, the particle id and the first/last valid timestamps (whole
seconds). -/
structure Track where
  par_id : ℕ
  coords : List (ℚ × ℚ)
  time_start : ℤ
  time_end : ℤ
  deriving DecidableEq

/-- For particle `p`: the subsampled `(timestamp, x, y)` triples at which
both coordinates are finite, in temporal order.  This is
`coords = np.column_stack((x, y)); mask = np.isfinite(coords).all(axis=1);
coords[mask]` together with `time_sub[mask]` (`proc.py` lines 138-140,
145-146). -/
def validTriples (lonS latS : List (List FVal)) (timesS : List ℤ) (p : ℕ) :
    List (ℤ × ℚ × ℚ) :=
  (timesS.zip ((col lonS p).zip (col latS p))).filterMap fun z =>
    match z with
    | (t, some a, some b) => some (t, a, b)
    | _ => none

/-- The loop body of line mode for one particle (`proc.py`
lines 130-146): skip the particle when its x column or y column is
all-NaN (`np.all(np.isnan(..))`), keep the jointly finite coordinates in
temporal order, and emit a track when at least two points remain
(`if len(coords) > 1`), with the first and last valid timestamps. -/
def trackFor (lonS latS : List (List FVal)) (timesS : List ℤ)
    (p : ℕ) : Option Track :=
  let x := col lonS p
  let y := col latS p
  if x.all (fun v => v = none) || y.all (fun v => v = none) then none
  else
    let tri := validTriples lonS latS timesS p
    if 2 ≤ tri.length then
      some { par_id := p
             coords := tri.map (fun z => (z.2.1, z.2.2))
             time_start := (tri.head?.map (fun z => z.1)).getD 0
             time_end := (tri.getLast?.map (fun z => z.1)).getD 0 }
    else none

/-- The per-particle loop of line mode (`proc.py` lines 125-148):
`for pid in range(n_particles)`, collecting the emitted tracks. -/
def buildTracks (lonS latS : List (List FVal)) (timesS : List ℤ)
    (nPart : ℕ) : List Track :=
  (List.range nPart).filterMap (trackFor lonS latS timesS)

/-- One emitted point record (`proc.py` lines 225-249): particle id,
timestamp (whole seconds) and the point coordinates. -/
structure PtRec where
  par_id : ℕ
  time : ℤ
  lon : ℚ
  lat : ℚ
  deriving DecidableEq

/-- `valid_mask = np.isfinite(lon_sub) & np.isfinite(lat_sub)` at index
`[ti, pi]` (`proc.py` line 222). -/
def validMask (lonS latS : List (List FVal)) (ti pi : ℕ) : Bool :=
  ((lonS.getD ti []).getD pi none).isSome
    && ((latS.getD ti []).getD pi none).isSome

/-- `rows, cols = np.where(valid_mask)` (`proc.py` line 225): the index
pairs where the mask holds, scanned in row-major (time-major) order. -/
def wherePairs (lonS latS : List (List FVal)) (nT nP : ℕ) : List (ℕ × ℕ) :=
  (List.range nT).flatMap fun ti =>
    ((List.range nP).filter fun pi => validMask lonS latS ti pi).map
      fun pi => (ti, pi)

/-- The record built for one valid `(time, particle)` index pair
(`proc.py` lines 226-229, 238-249). -/
def mkPt (lonS latS : List (List FVal)) (timesS : List ℤ)
    (rc : ℕ × ℕ) : PtRec :=
  { par_id := rc.2
    time := timesS.getD rc.1 0
    lon := ((lonS.getD rc.1 []).getD rc.2 none).getD 0
    lat := ((latS.getD rc.1 []).getD rc.2 none).getD 0 }

/-- The point-mode builder (`proc.py` lines 222-249): one record per valid
index pair of `np.where`, in row-major order.  `n_time, n_particles` come
from `lon_sub.shape` (line 216). -/
def pointRecords (lonS latS : List (List FVal)) (timesS : List ℤ) :
    List PtRec :=
  (wherePairs lonS latS lonS.length (lonS.headD []).length).map
    (mkPt lonS latS timesS)

/-- Outcome of one conversion call: a propagated exception, the
early-return "no output" no-op (`return None` with no file written,
`proc.py` lines 150-152 / 233-235), or a successful export of the built
geometries (`export_gdf` then `return gdf`). -/
inductive RunOutcome (α : Type) where
  | raised (e : PyErr)
  | skipped
  | exported (val : α)
  deriving DecidableEq

/-- The tracks built by `ncTrk2line` once the stride `k` is known
(`proc.py` lines 113-146): subsample along time, mask with the fill value
of the x variable, build per-particle tracks; `n_particles` is read from
`lon_sub.shape` (line 117) and timestamps are rounded to whole seconds
(line 116). -/
def lineTracksOf (ds : Dataset) (k : ℤ) : List Track :=
  let lonS := maskGrid (fillValue ds) (subsample k.toNat ds.lon)
  let latS := maskGrid (fillValue ds) (subsample k.toNat ds.lat)
  let timesS := (subsample k.toNat ds.times).map pyRound
  buildTracks lonS latS timesS (lonS.headD []).length

/-- The records built by `ncTrk2pt` once the stride `k` is known
(`proc.py` lines 212-231). -/
def ptRecordsOf (ds : Dataset) (k : ℤ) : List PtRec :=
  let lonS := maskGrid (fillValue ds) (subsample k.toNat ds.lon)
  let latS := maskGrid (fillValue ds) (subsample k.toNat ds.lat)
  let timesS := (subsample k.toNat ds.times).map pyRound
  pointRecords lonS latS timesS

/-- `ncTrk2line` (`proc.py` lines 70-167).  `fileExists` models
`os.path.isfile(nc_file)` (line 86); a missing input raises
`FileNotFoundError` before the dataset is opened. -/
def ncTrk2line (fileExists : Bool) (ds : Dataset) (downscale_hours : ℚ) :
    RunOutcome (List Track) :=
  if fileExists = false then RunOutcome.raised PyErr.fileNotFound
  else
    match computeStep downscale_hours ds.times with
    | Except.error e => RunOutcome.raised e
    | Except.ok k =>
      let tracks := lineTracksOf ds k
      if tracks = [] then RunOutcome.skipped else RunOutcome.exported tracks

/-- `ncTrk2pt` (`proc.py` lines 169-253). -/
def ncTrk2pt (fileExists : Bool) (ds : Dataset) (downscale_hours : ℚ) :
    RunOutcome (List PtRec) :=
  if fileExists = false then RunOutcome.raised PyErr.fileNotFound
  else
    match computeStep downscale_hours ds.times with
    | Except.error e => RunOutcome.raised e
    | Except.ok k =>
      let recs := ptRecordsOf ds k
      if recs = [] then RunOutcome.skipped else RunOutcome.exported recs

/-! ## Exporter (`export_gdf`, `proc.py` lines 9-68)

A `GeoDataFrame` is modelled, for export purposes, by its ordered list of
column names; the geometry is one of those columns (named `geometry`).
`gdf.to_csv` / `to_excel` serialize every column of the frame, the
geometry column included; `gdf.to_file` serializes geometry natively via
a GDAL driver. -/

/-- `str.lower()` for file extensions and mode strings (basic-latin
lowering, as Python's `str.lower` on ASCII input). -/
def strLower (s : String) : String := String.mk (s.data.map Char.toLower)

/-- What one `export_gdf` call writes. -/
inductive ExportResult where
  | csvTable (columns : List String)
  | xlsxTable (columns : List String)
  | spatial (driver : String) (datetimesStringified : Bool)
    (columns : List String)
  | fallback (columns : List String)
  deriving DecidableEq

/-- `DRIVER_MAP` (`proc.py` lines 9-18). -/
def DRIVER_MAP : List (String × String) :=
  [(".shp", "ESRI Shapefile"), (".gpkg", "GPKG"), (".json", "GeoJSON"),
   (".geojson", "GeoJSON"), (".geojsonl", "GeoJSONSeq"),
   (".sqlite", "SQLite"), (".gml", "GML"), (".kml", "KML")]

/-- `export_gdf` (`proc.py` lines 20-68).  `ext0` is
`os.path.splitext(output_path)[1]`; the code lowercases it (line 24),
checks the tabular extensions first, then looks up a spatial driver,
falling back to a generic `to_file` for unknown extensions.  Shapefile
export stringifies datetime columns first (lines 56-62). -/
def export_gdf (columns : List String) (ext0 : String) : ExportResult :=
  let ext := strLower ext0
  if ext = ".csv" then ExportResult.csvTable columns
  else if ext = ".xlsx" then ExportResult.xlsxTable columns
  else
    match DRIVER_MAP.lookup ext with
    | some d => ExportResult.spatial d (d = "ESRI Shapefile") columns
    | none => ExportResult.fallback columns

/-- The columns of the `GeoDataFrame` built by line mode
(`proc.py` lines 155-163): the three attribute columns plus the geometry
column. -/
def lineGdfColumns : List String :=
  ["par_id", "time_start", "time_end", "geometry"]

/-- The columns of the `GeoDataFrame` built by point mode
(`proc.py` lines 245-249). -/
def ptGdfColumns : List String := ["par_id", "time", "geometry"]

/-! ## Resource events (claim about resource release)

The resource-relevant actions a conversion call performs, in order.
`xr.open_dataset` (`proc.py` lines 88 / 187) opens the input dataset;
no `close`/`with` appears anywhere in `proc.py`, so no close event for
the dataset is ever emitted.  The export backends (`to_csv` / `to_file`,
reached only on the `exported` path) open and close the output file
internally. -/

inductive REvent where
  | openDataset
  | closeDataset
  | openOutputFile
  | closeOutputFile
  deriving DecidableEq

/-- Resource-event trace of one `ncTrk2line` call. -/
def lineEvents (fileExists : Bool) (ds : Dataset) (dh : ℚ) : List REvent :=
  if fileExists = false then []
  else
    REvent.openDataset ::
      (match ncTrk2line fileExists ds dh with
       | RunOutcome.exported _ =>
         [REvent.openOutputFile, REvent.closeOutputFile]
       | _ => [])

/-- Resource-event trace of one `ncTrk2pt` call. -/
def ptEvents (fileExists : Bool) (ds : Dataset) (dh : ℚ) : List REvent :=
  if fileExists = false then []
  else
    REvent.openDataset ::
      (match ncTrk2pt fileExists ds dh with
       | RunOutcome.exported _ =>
         [REvent.openOutputFile, REvent.closeOutputFile]
       | _ => [])

/-! ## Command-line driver (`cli.py`) -/

/-- A JSON value as produced by `json.load`. -/
inductive JVal where
  | null
  | jbool (b : Bool)
  | num (q : ℚ)
  | str (s : String)
  | arr (xs : List JVal)
  | obj (fields : List (String × JVal))

/-- Python truthiness of a JSON value (`if not nc_file`, `cli.py`
line 16): `None`, `False`, `0`, `""`, `[]`, `{}` are falsy. -/
def truthy : JVal → Bool
  | JVal.null => false
  | JVal.jbool b => b
  | JVal.num q => q ≠ 0
  | JVal.str s => s ≠ ""
  | JVal.arr xs => !xs.isEmpty
  | JVal.obj fs => !fs.isEmpty

/-- `task.get(key)`: `none` when the key is absent.  (Keys of a parsed
JSON object are unique, so first-match lookup is `dict.get`.) -/
def jget (fields : List (String × JVal)) (key : String) : Option JVal :=
  (fields.find? (fun f => f.1 = key)).map (fun f => f.2)

/-- How one task ended, as observable from the logs (`cli.py` lines 7-32). -/
inductive TaskOutcome where
  | missingField
  | ranLine
  | ranPt
  | unknownMode
  | caughtError (e : PyErr)
  deriving DecidableEq

/-- A conversion routine as seen by the driver: it gets the raw JSON
values of `input_nc`, `output_path` and `downscale_hour` and either
succeeds or raises. -/
abbrev Conv := JVal → JVal → JVal → Except PyErr Unit

/-- `process_task` (`cli.py` lines 7-32).  Statement order follows the
source: `task.get` raises `AttributeError` when the task is not an
object (line 11); `.lower()` raises `AttributeError` when the `mode`
value is not a string (line 13) — both happen before the
missing-field check (line 16) and outside the `try` block (lines 22-32),
so they escape `process_task` (modelled by `Except.error`).  Everything
raised by the conversion call itself is caught (lines 29-32). -/
def process_task (runLine runPt : Conv) (task : JVal) :
    Except PyErr TaskOutcome :=
  match task with
  | JVal.obj fields =>
    let nc := jget fields ("input_nc")
    let out := jget fields ("output_path")
    match (jget fields ("mode")).getD (JVal.str ("point")) with
    | JVal.str ms =>
      let mode := strLower ms
      let dh := (jget fields ("downscale_hour")).getD (JVal.num 1)
      if !(nc.map truthy).getD false || !(out.map truthy).getD false then
        Except.ok TaskOutcome.missingField
      else if mode = "line" then
        match runLine (nc.getD JVal.null) (out.getD JVal.null) dh with
        | Except.ok _ => Except.ok TaskOutcome.ranLine
        | Except.error e => Except.ok (TaskOutcome.caughtError e)
      else if mode = "point" then
        match runPt (nc.getD JVal.null) (out.getD JVal.null) dh with
        | Except.ok _ => Except.ok TaskOutcome.ranPt
        | Except.error e => Except.ok (TaskOutcome.caughtError e)
      else Except.ok TaskOutcome.unknownMode
    | _ => Except.error PyErr.attributeError
  | _ => Except.error PyErr.attributeError

/-- Task-list extraction (`cli.py` lines 57-66): a JSON array is the task
list; an object with a `tasks` array uses that list; any other object is
a single task; any other value yields no tasks. -/
def extractTasks : JVal → List JVal
  | JVal.arr xs => xs
  | JVal.obj fields =>
    match jget fields ("tasks") with
    | some (JVal.arr ts) => ts
    | _ => [JVal.obj fields]
  | _ => []

/-- Why loading the config failed (`cli.py` lines 46-55). -/
inductive CfgErr where
  | fileNotFound
  | badJson
  deriving DecidableEq

/-- `main` (`cli.py` lines 34-73), given the result of locating and
parsing the config file.  A missing file or malformed JSON exits with
code 1; otherwise every task is processed in order and the process
exits 0 — unless a task raises outside the per-task `try`, which
propagates (`Except.error`, the interpreter then aborts the batch). -/
def mainRun (runLine runPt : Conv) (cfg : Except CfgErr JVal) :
    Except PyErr (ℕ × List TaskOutcome) :=
  match cfg with
  | Except.error _ => Except.ok (1, [])
  | Except.ok j =>
    (extractTasks j).mapM (process_task runLine runPt) |>.map
      fun outs => (0, outs)

/-- A conversion stub that always succeeds (for concrete instances). -/
def okStub : Conv := fun _ _ _ => Except.ok ()

/-! ## Concrete instances used to exercise the theorems -/

/-- A 100-step hourly time axis (seconds). -/
def hourly100 : List ℚ := (List.range 100).map (fun i => (i : ℚ) * 3600)

/-- 3 hourly timesteps, 2 particles; particle 1 is entirely fill-valued,
particle 0 has two valid positions and one NaN position. -/
def dsA : Dataset :=
  { lon := [[some 10, some (-999)], [some 11, some (-999)],
            [none, some (-999)]]
    lat := [[some 20, some (-999)], [some 21, some (-999)],
            [some 22, some (-999)]]
    times := [0, 3600, 7200]
    lonFill := none
    latFill := none }

/-- 2 hourly timesteps, 1 particle, everything fill-valued. -/
def dsB : Dataset :=
  { lon := [[some (-999)], [some (-999)]]
    lat := [[some (-999)], [some (-999)]]
    times := [0, 3600]
    lonFill := none
    latFill := none }

/-- A tiny masked 2-timestep, 2-particle grid pair for exercising the
builders directly: particle 0 is valid at both timesteps, particle 1 only
at the first. -/
def lonT : List (List FVal) := [[some 1, some 9], [some 2, none]]

/-- See `lonT`. -/
def latT : List (List FVal) := [[some 5, some 8], [some 6, none]]

/-- See `lonT`: the matching (already rounded) subsampled time axis. -/
def timesT : List ℤ := [0, 3600]

/-- The raw `mode` field of a task, when the task is an object. -/
def modeField : JVal → Option JVal
  | JVal.obj fields => jget fields ("mode")
  | _ => none

/-- A task shape that `process_task` can handle without raising before
its `try` block: the task is a JSON object and its `mode` field, when
present, is a string. -/
def TaskWF (t : JVal) : Prop :=
  (∃ fs, t = JVal.obj fs) ∧
  ∀ v, modeField t = some v → ∃ s, v = JVal.str s

/-- A time axis with three identical timestamps: every consecutive
difference is zero. -/
def degenerateTimes : List ℚ := [5, 5, 5]

/-- A dataset over `degenerateTimes` with perfectly valid coordinates. -/
def dsDegen : Dataset :=
  { lon := [[some 1], [some 2], [some 3]]
    lat := [[some 4], [some 5], [some 6]]
    times := degenerateTimes
    lonFill := none
    latFill := none }

/-! ## Helper lemmas -/

theorem subsampleAux_length {α : Type} (k : ℕ) (hk : 1 ≤ k) :
    ∀ (n : ℕ) (l : List α),
      (subsampleAux k n l).length = (l.length + (k - 1) - n) / k := by
  intro n l
  induction l generalizing n with
  | nil =>
    simp only [subsampleAux, List.length_nil]
    rw [Nat.div_eq_of_lt (by omega : 0 + (k - 1) - n < k)]
  | cons a rest ih =>
    match n with
    | 0 =>
      simp only [subsampleAux, List.length_cons, ih (k - 1)]
      have h1 : rest.length + (k - 1) - (k - 1) = rest.length := by omega
      have h2 : rest.length + 1 + (k - 1) - 0 = rest.length + k := by omega
      rw [h1, h2, Nat.add_div_right _ (by omega : 0 < k)]
    | n + 1 =>
      simp only [subsampleAux, List.length_cons, ih n]
      congr 1
      omega

theorem subsample_length {α : Type} (k : ℕ) (hk : 1 ≤ k) (l : List α) :
    (subsample k l).length = (l.length + k - 1) / k := by
  rw [subsample, subsampleAux_length k hk 0 l]
  congr 1
  omega

theorem subsampleAux_mem {α : Type} {k n : ℕ} {l : List α} {a : α}
    (h : a ∈ subsampleAux k n l) : a ∈ l := by
  induction l generalizing n with
  | nil => simp [subsampleAux] at h
  | cons b rest ih =>
    match n with
    | 0 =>
      simp only [subsampleAux, List.mem_cons] at h ⊢
      rcases h with h | h
      · exact Or.inl h
      · exact Or.inr (ih h)
    | n + 1 =>
      simp only [subsampleAux, List.mem_cons] at h ⊢
      exact Or.inr (ih h)

theorem subsample_mem {α : Type} {k : ℕ} {l : List α} {a : α}
    (h : a ∈ subsample k l) : a ∈ l :=
  subsampleAux_mem h

/-- `(N + s - 1) / s` in `ℕ` is exactly `⌈N / s⌉`. -/
theorem ceil_div_nat (N s : ℕ) (hs : 0 < s) :
    ⌈(N : ℚ) / (s : ℚ)⌉ = (((N + s - 1) / s : ℕ) : ℤ) := by
  have hs0 : (0 : ℚ) < (s : ℚ) := by exact_mod_cast hs
  have hle : ((N + s - 1) / s) * s ≤ N + s - 1 := Nat.div_mul_le_self _ _
  have hlt : N + s - 1 < (N + s - 1) / s * s + s := Nat.lt_div_mul_add hs
  set q := (N + s - 1) / s with hq
  have h1 : N ≤ q * s := by
    generalize hqs : q * s = t at hle hlt ⊢
    omega
  have h2 : q * s < N + s := by
    generalize hqs : q * s = t at hle hlt ⊢
    omega
  rw [Int.ceil_eq_iff]
  constructor
  · refine (lt_div_iff₀ hs0).mpr ?_
    have hc : (q : ℚ) * s < (N : ℚ) + s := by exact_mod_cast h2
    push_cast
    nlinarith [hc]
  · rw [div_le_iff₀ hs0]
    push_cast
    exact_mod_cast h1

theorem countP_filterMap_opt {α β : Type} (f : α → Option β)
    (q : β → Bool) (l : List α) :
    (l.filterMap f).countP q
      = l.countP (fun a => ((f a).map q).getD false) := by
  induction l with
  | nil => rfl
  | cons a rest ih =>
    cases hfa : f a with
    | none =>
      simp [List.filterMap_cons, hfa, List.countP_cons, ih]
    | some b =>
      by_cases hq : q b <;>
        simp [List.filterMap_cons, hfa, List.countP_cons, ih, hq]

theorem countP_range_eq_single (g : ℕ → Bool) (p n : ℕ) (hp : p < n)
    (h : ∀ i, g i = true → i = p) :
    (List.range n).countP g = if g p then 1 else 0 := by
  induction n with
  | zero => omega
  | succ n ih =>
    rw [List.range_succ, List.countP_append]
    by_cases hpn : p < n
    · rw [ih hpn]
      have hgn : g n = false := by
        by_cases hg : g n = true
        · exact absurd (h n hg) (by omega)
        · simpa using hg
      simp [List.countP_cons, hgn]
    · have hpe : p = n := by omega
      subst hpe
      have h0 : (List.range p).countP g = 0 := by
        rw [List.countP_eq_zero]
        intro i hi hgi
        have := h i hgi
        subst this
        exact absurd (List.mem_range.mp hi) (by omega)
      simp [h0, List.countP_cons]

theorem countP_eq_sum_ite {α : Type} (q : α → Bool) (l : List α) :
    l.countP q = (l.map (fun a => if q a then 1 else 0)).sum := by
  induction l with
  | nil => rfl
  | cons a rest ih =>
    by_cases hq : q a <;> simp [List.countP_cons, ih, hq, Nat.add_comm]

/-- A particle whose x column is all-NaN has no valid triples. -/
theorem validTriples_nil_left {lonS latS : List (List FVal)}
    {timesS : List ℤ} {p : ℕ}
    (h : (col lonS p).all (fun v => v = none) = true) :
    validTriples lonS latS timesS p = [] := by
  rw [validTriples, List.filterMap_eq_nil_iff]
  rintro ⟨t, xv, yv⟩ hz
  have hx : xv ∈ col lonS p :=
    (List.of_mem_zip ((List.of_mem_zip hz).2)).1
  have : xv = none := by
    have := List.all_eq_true.mp h xv hx
    simpa using this
  subst this
  rfl

/-- A particle whose y column is all-NaN has no valid triples. -/
theorem validTriples_nil_right {lonS latS : List (List FVal)}
    {timesS : List ℤ} {p : ℕ}
    (h : (col latS p).all (fun v => v = none) = true) :
    validTriples lonS latS timesS p = [] := by
  rw [validTriples, List.filterMap_eq_nil_iff]
  rintro ⟨t, xv, yv⟩ hz
  have hy : yv ∈ col latS p :=
    (List.of_mem_zip ((List.of_mem_zip hz).2)).2
  have hyn : yv = none := by
    have := List.all_eq_true.mp h yv hy
    simpa using this
  subst hyn
  cases xv <;> rfl

/-- An emitted track carries the particle index it was built from. -/
theorem trackFor_par_id {lonS latS : List (List FVal)} {timesS : List ℤ}
    {i : ℕ} {tr : Track} (h : trackFor lonS latS timesS i = some tr) :
    tr.par_id = i := by
  rw [trackFor] at h
  simp only at h
  split at h
  · exact absurd h (by simp)
  · split at h
    · cases h
      rfl
    · exact absurd h (by simp)

/-- The particle loop body emits nothing exactly when fewer than two
valid triples exist (the all-NaN skip branch is subsumed: an all-NaN
column admits no valid triple). -/
theorem trackFor_eq_none_iff {lonS latS : List (List FVal)}
    {timesS : List ℤ} {i : ℕ} :
    trackFor lonS latS timesS i = none
      ↔ (validTriples lonS latS timesS i).length < 2 := by
  rw [trackFor]
  simp only
  constructor
  · intro h
    split at h
    · rename_i hskip
      rcases Bool.or_eq_true_iff.mp hskip with hx | hy
      · rw [validTriples_nil_left hx]
        simp
      · rw [validTriples_nil_right hy]
        simp
    · split at h
      · exact absurd h (by simp)
      · rename_i hn
        omega
  · intro hlen
    split
    · rfl
    · split
      · rename_i h2
        omega
      · rfl

/-- The `np.where` scan over the 2-D mask is the row-major enumeration of
all index pairs, filtered by the mask. -/
theorem wherePairs_product (lonS latS : List (List FVal)) (nT nP : ℕ) :
    wherePairs lonS latS nT nP
      = ((List.range nT).product (List.range nP)).filter
          (fun rc => validMask lonS latS rc.1 rc.2) := by
  rw [wherePairs, List.product, List.filter_flatMap]
  congr 1
  funext ti
  rw [List.filter_map]
  rfl

/-! ## Claims -/

/-- C1: for every time axis of length `N ≥ 2` with positive median
consecutive difference `m`, both conversion routines (whose stride code,
`proc.py` lines 105-106 and 205-206, is the shared `computeStep`) compute
the stride as `max 1 (round (downscale_hours * 3600 / m))` with Python's
`round`; the stride is a positive integer, and subsampling any
time-indexed array with it starting at index 0 retains exactly
`⌈N / stride⌉` entries. -/
theorem stride_and_retention (dh m : ℚ) (times : List ℚ)
    (_hlen : 2 ≤ times.length)
    (hmed : npMedian (diffs times) = some m) (hpos : 0 < m) :
    computeStep dh times = Except.ok (max 1 (pyRound (dh * 3600 / m))) ∧
    1 ≤ max 1 (pyRound (dh * 3600 / m)) ∧
    ∀ (β : Type) (l : List β),
      ((subsample (max 1 (pyRound (dh * 3600 / m))).toNat l).length : ℤ)
        = ⌈(l.length : ℚ) / ((max 1 (pyRound (dh * 3600 / m)) : ℤ) : ℚ)⌉ := by
  have hstep : computeStep dh times
      = Except.ok (max 1 (pyRound (dh * 3600 / m))) := by
    rw [computeStep, hmed]
    simp [ne_of_gt hpos]
  refine ⟨hstep, le_max_left _ _, ?_⟩
  intro β l
  set s : ℤ := max 1 (pyRound (dh * 3600 / m)) with hs
  have hs1 : 1 ≤ s := le_max_left _ _
  have hsn : 1 ≤ s.toNat := by omega
  have hsn2 : ((s.toNat : ℕ) : ℤ) = s := Int.toNat_of_nonneg (by omega)
  have hcast : ((s.toNat : ℕ) : ℚ) = ((s : ℤ) : ℚ) := by exact_mod_cast hsn2
  rw [subsample_length s.toNat hsn l, ← hcast]
  exact (ceil_div_nat l.length s.toNat (by omega)).symm

/-- Every cell of a row of all-`none` cells reads back as `none`. -/
theorem rowCell_none {row : List FVal} (h : ∀ v ∈ row, v = none) (p : ℕ) :
    row.getD p none = none := by
  rw [List.getD_eq_getElem?_getD]
  rcases hc : row[p]? with _ | v
  · rfl
  · have hv : v ∈ row := List.getElem?_mem hc
    simp [h v hv]

/-- Every cell of a grid of all-`none` cells reads back as `none`. -/
theorem gridCell_none {g : List (List FVal)} (hg : ∀ row ∈ g, ∀ v ∈ row, v = none)
    (ti pi : ℕ) : (g.getD ti []).getD pi none = none := by
  rw [List.getD_eq_getElem?_getD (l := g)]
  rcases hr : g[ti]? with _ | row
  · rfl
  · have hrow : row ∈ g := List.getElem?_mem hr
    simp only [Option.getD_some]
    exact rowCell_none (hg row hrow) pi

/-- Columns of a grid of all-`none` cells are all `none`. -/
theorem col_all_none {g : List (List FVal)}
    (hg : ∀ row ∈ g, ∀ v ∈ row, v = none) (p : ℕ) :
    (col g p).all (fun v => v = none) = true := by
  simp only [col, List.all_eq_true, List.mem_map]
  rintro v ⟨row, hrow, rfl⟩
  rw [rowCell_none (hg row hrow) p]
  rfl


/-- Masking a grid whose every cell equals the fill value yields a grid of
all-`none` cells. -/
theorem maskGrid_allfill {fill : ℚ} {g : List (List FVal)}
    (hg : ∀ row ∈ g, ∀ v ∈ row, v = some fill) :
    ∀ row ∈ maskGrid fill g, ∀ v ∈ row, v = none := by
  simp only [maskGrid, List.mem_map]
  rintro row ⟨row0, hrow0, rfl⟩ v hv
  simp only [List.mem_map] at hv
  obtain ⟨w, hw, rfl⟩ := hv
  rw [hg row0 hrow0 w hw]
  simp [maskCell]

/-- Subsampling preserves the all-fill property of a grid. -/
theorem subsample_allfill {fill : ℚ} {g : List (List FVal)} {k : ℕ}
    (hg : ∀ row ∈ g, ∀ v ∈ row, v = some fill) :
    ∀ row ∈ subsample k g, ∀ v ∈ row, v = some fill :=
  fun row hrow => hg row (subsample_mem hrow)

/-- Line mode emits nothing from a grid of all-`none` x cells. -/
theorem buildTracks_eq_nil {lonS latS : List (List FVal)} {timesS : List ℤ}
    {n : ℕ} (h : ∀ row ∈ lonS, ∀ v ∈ row, v = none) :
    buildTracks lonS latS timesS n = [] := by
  rw [buildTracks, List.filterMap_eq_nil_iff]
  intro p _
  simp [trackFor, col_all_none h p]

/-- Point mode emits nothing from a grid of all-`none` x cells. -/
theorem pointRecords_eq_nil {lonS latS : List (List FVal)} {timesS : List ℤ}
    (h : ∀ row ∈ lonS, ∀ v ∈ row, v = none) :
    pointRecords lonS latS timesS = [] := by
  rw [pointRecords, wherePairs, List.map_eq_nil_iff, List.flatMap_eq_nil_iff]
  intro ti _
  rw [List.map_eq_nil_iff, List.filter_eq_nil_iff]
  intro pi _
  have hcell : (lonS.getD ti []).getD pi none = none := gridCell_none h ti pi
  rw [List.getD_eq_getElem?_getD, List.getD_eq_getElem?_getD] at hcell
  simp [validMask, hcell]

/-- C4: the validity masker replaces exactly the cells equal to the fill
sentinel with NaN, leaves every other cell unchanged (comparison is exact
equality on the value, not tolerance-based), and a masked cell is finite
exactly when the original cell was finite and different from the
sentinel. -/
theorem masker_exact (fill q : ℚ) (v : FVal) :
    maskCell fill (some fill) = none ∧
    (q ≠ fill → maskCell fill (some q) = some q) ∧
    maskCell fill none = none ∧
    ((maskCell fill v).isSome = true ↔ ∃ a, v = some a ∧ a ≠ fill) := by
  refine ⟨by simp [maskCell], fun h => by simp [maskCell, h], rfl, ?_⟩
  cases v with
  | none => simp [maskCell]
  | some a =>
    by_cases h : a = fill <;> simp [maskCell, h]

/-- C4 at concrete cells: the sentinel is replaced, a value within
`10⁻⁶` of the sentinel is kept verbatim (no tolerance), NaN stays NaN,
and the validity of an ordinary cell. -/
theorem masker_exact_witness :
    maskCell (-999) (some (-999)) = none ∧
    maskCell (-999) (some (-999 + 1 / 1000000))
      = some (-999 + 1 / 1000000) ∧
    maskCell (-999) none = none ∧
    ((maskCell (-999) (some 5)).isSome = true ↔
      ∃ a, (some 5 : FVal) = some a ∧ a ≠ -999) :=
  ⟨(masker_exact (-999) (-999 + 1 / 1000000) (some 5)).1,
   (masker_exact (-999) (-999 + 1 / 1000000) (some 5)).2.1 (by decide),
   (masker_exact (-999) (-999 + 1 / 1000000) (some 5)).2.2.1,
   (masker_exact (-999) (-999 + 1 / 1000000) (some 5)).2.2.2⟩

/-- C5 (refuting the claimed robustness): on a time axis whose
consecutive differences are all zero, the stride computation divides by
zero — `downscale_seconds / median_dt` raises `ZeroDivisionError`
(`proc.py` lines 105-106 / 205-206), which propagates out of both
conversion routines.  The code neither clamps the divisor to an epsilon
nor falls back to stride 1. -/
theorem zero_median_divides_by_zero :
    npMedian (diffs degenerateTimes) = some 0 ∧
    computeStep 1 degenerateTimes = Except.error PyErr.zeroDivision ∧
    ncTrk2line true dsDegen 1 = RunOutcome.raised PyErr.zeroDivision ∧
    ncTrk2pt true dsDegen 1 = RunOutcome.raised PyErr.zeroDivision := by
  decide

/-- C6: with a successful stride computation, each routine returns the
informational no-op (`return None`: nothing exported, no exception)
whenever its builder produces zero geometries; in particular a dataset
whose every coordinate cell equals the fill sentinel yields the no-op in
both modes. -/
theorem no_valid_geometries_no_output (ds : Dataset) (dh : ℚ) (k : ℤ)
    (hk : computeStep dh ds.times = Except.ok k) :
    (lineTracksOf ds k = [] → ncTrk2line true ds dh = RunOutcome.skipped) ∧
    (ptRecordsOf ds k = [] → ncTrk2pt true ds dh = RunOutcome.skipped) ∧
    ((∀ row ∈ ds.lon, ∀ v ∈ row, v = some (fillValue ds)) →
     (∀ row ∈ ds.lat, ∀ v ∈ row, v = some (fillValue ds)) →
     ncTrk2line true ds dh = RunOutcome.skipped ∧
     ncTrk2pt true ds dh = RunOutcome.skipped) := by
  have hline : lineTracksOf ds k = [] →
      ncTrk2line true ds dh = RunOutcome.skipped := by
    intro h
    simp [ncTrk2line, hk, h]
  have hpt : ptRecordsOf ds k = [] →
      ncTrk2pt true ds dh = RunOutcome.skipped := by
    intro h
    simp [ncTrk2pt, hk, h]
  refine ⟨hline, hpt, fun hlon hlat => ⟨?_, ?_⟩⟩
  · refine hline ?_
    rw [lineTracksOf]
    exact buildTracks_eq_nil (maskGrid_allfill (subsample_allfill hlon))
  · refine hpt ?_
    rw [ptRecordsOf]
    exact pointRecords_eq_nil (maskGrid_allfill (subsample_allfill hlon))

/-- C6 at the all-fill dataset `dsB`: both modes are a no-op. -/
theorem no_valid_geometries_no_output_witness :
    ncTrk2line true dsB 1 = RunOutcome.skipped ∧
    ncTrk2pt true dsB 1 = RunOutcome.skipped :=
  (no_valid_geometries_no_output dsB 1 1 (by decide)).2.2
    (by decide) (by decide)

/-- C7 counterexample: exporting the point-mode frame to a `.csv` path
writes the `to_csv` table of the whole frame — the geometry column is
serialized too (`gdf.to_csv(output_path, index=False)`, `proc.py`
line 33, writes every column of the GeoDataFrame), contradicting the
claim that no geometry column is serialized. -/
theorem csv_keeps_geometry_counterexample :
    export_gdf ptGdfColumns (".csv")
      = ExportResult.csvTable ["par_id", "time", "geometry"] ∧
    "geometry" ∈ ["par_id", "time", "geometry"] := by
  decide

/-- C7 amended: for a path extension equal to `.csv` case-insensitively,
the written output is the flat `to_csv` table of all columns of the
frame — for the pipeline frames, the attribute columns followed by the
geometry column — and no spatial driver is involved. -/
theorem csv_writes_all_columns (cols : List String) (ext : String)
    (hext : strLower ext = ".csv") :
    export_gdf cols ext = ExportResult.csvTable cols ∧
    export_gdf lineGdfColumns ext
      = ExportResult.csvTable
          (["par_id", "time_start", "time_end"] ++ ["geometry"]) ∧
    export_gdf ptGdfColumns ext
      = ExportResult.csvTable (["par_id", "time"] ++ ["geometry"]) := by
  refine ⟨?_, ?_, ?_⟩ <;> simp [export_gdf, hext, lineGdfColumns, ptGdfColumns]

/-- C7 amended, at the upper-case extension `.CSV`. -/
theorem csv_writes_all_columns_witness :
    export_gdf ptGdfColumns (".CSV")
      = ExportResult.csvTable ptGdfColumns ∧
    export_gdf lineGdfColumns (".CSV")
      = ExportResult.csvTable
          (["par_id", "time_start", "time_end"] ++ ["geometry"]) ∧
    export_gdf ptGdfColumns (".CSV")
      = ExportResult.csvTable (["par_id", "time"] ++ ["geometry"]) :=
  csv_writes_all_columns ptGdfColumns (".CSV") (by decide)

/-- C9 (refuting release-on-every-path): a successful conversion opens
the input dataset (`xr.open_dataset`, `proc.py` lines 88/187) and never
closes it — there is no `close()` call or `with` block anywhere in
`proc.py` — while the output file opened by the export backend is closed
by that backend.  The trace of a normal run therefore contains the
dataset-open event but no dataset-close event. -/
theorem dataset_never_closed :
    lineEvents true dsA 1
      = [REvent.openDataset, REvent.openOutputFile,
         REvent.closeOutputFile] ∧
    ptEvents true dsA 1
      = [REvent.openDataset, REvent.openOutputFile,
         REvent.closeOutputFile] ∧
    REvent.closeDataset ∉ lineEvents true dsA 1 ∧
    REvent.closeDataset ∉ ptEvents true dsA 1 := by
  decide

/-- C10: both routines mask both coordinate grids with the single fill
value read from the x variable (the same `fillValue ds` is applied to
`lon` and `lat`); the y variable's `_FillValue` attribute is never
consulted (replacing it changes nothing), and when the x variable lacks
the attribute the default `-999.0` is used. -/
theorem fill_value_from_x_only (ds : Dataset) (dh : ℚ) (fe : Bool) (k : ℤ)
    (x y : Option ℚ) :
    ncTrk2line fe { ds with latFill := x } dh
      = ncTrk2line fe { ds with latFill := y } dh ∧
    ncTrk2pt fe { ds with latFill := x } dh
      = ncTrk2pt fe { ds with latFill := y } dh ∧
    (ds.lonFill = none → fillValue ds = -999) ∧
    lineTracksOf ds k
      = buildTracks (maskGrid (fillValue ds) (subsample k.toNat ds.lon))
          (maskGrid (fillValue ds) (subsample k.toNat ds.lat))
          ((subsample k.toNat ds.times).map pyRound)
          ((maskGrid (fillValue ds) (subsample k.toNat ds.lon)).headD
            []).length ∧
    ptRecordsOf ds k
      = pointRecords (maskGrid (fillValue ds) (subsample k.toNat ds.lon))
          (maskGrid (fillValue ds) (subsample k.toNat ds.lat))
          ((subsample k.toNat ds.times).map pyRound) := by
  refine ⟨?_, ?_, fun h => by simp [fillValue, h], rfl, rfl⟩
  · obtain ⟨lon, lat, times, lonFill, latFill⟩ := ds
    rfl
  · obtain ⟨lon, lat, times, lonFill, latFill⟩ := ds
    rfl

/-- C10 at `dsA` with two different y-side fill attributes. -/
theorem fill_value_from_x_only_witness :
    ncTrk2line true { dsA with latFill := some 7 } 1
      = ncTrk2line true { dsA with latFill := none } 1 ∧
    ncTrk2pt true { dsA with latFill := some 7 } 1
      = ncTrk2pt true { dsA with latFill := none } 1 ∧
    (dsA.lonFill = none → fillValue dsA = -999) :=
  ⟨(fill_value_from_x_only dsA 1 true 1 (some 7) none).1,
   (fill_value_from_x_only dsA 1 true 1 (some 7) none).2.1,
   (fill_value_from_x_only dsA 1 true 1 (some 7) none).2.2.1⟩

/-- C1 at the axis named by the claim: 100 hourly steps,
`downscale_hour = 3` gives stride 3 and 34 retained timesteps. -/
theorem stride_and_retention_witness :
    computeStep 3 hourly100
      = Except.ok (max 1 (pyRound ((3 : ℚ) * 3600 / 3600))) ∧
    max 1 (pyRound ((3 : ℚ) * 3600 / 3600)) = 3 ∧
    (subsample 3 hourly100).length = 34 :=
  ⟨(stride_and_retention 3 3600 hourly100 (by decide) (by decide)
      (by decide)).1,
   by decide, by decide⟩

/-- C2: in line mode a track is emitted for particle `p` (exactly one)
if and only if at least two subsampled timesteps have both coordinates
finite after masking; the emitted polyline runs through exactly those
jointly finite coordinates in temporal order, and carries the particle
id and the first and last valid timestamps.  A particle with 0 or 1
valid points yields no track (and the loop is total: no error). -/
theorem line_track_iff (lonS latS : List (List FVal)) (timesS : List ℤ)
    (nPart p : ℕ) (hp : p < nPart) :
    ((buildTracks lonS latS timesS nPart).countP
        (fun tr => tr.par_id = p)
      = if 2 ≤ (validTriples lonS latS timesS p).length then 1 else 0) ∧
    ∀ tr ∈ buildTracks lonS latS timesS nPart, tr.par_id = p →
      2 ≤ (validTriples lonS latS timesS p).length ∧
      tr.coords
        = (validTriples lonS latS timesS p).map (fun z => (z.2.1, z.2.2)) ∧
      ∃ zf zl, (validTriples lonS latS timesS p).head? = some zf ∧
        (validTriples lonS latS timesS p).getLast? = some zl ∧
        tr.time_start = zf.1 ∧ tr.time_end = zl.1 := by
  have hval : ∀ i, 2 ≤ (validTriples lonS latS timesS i).length →
      trackFor lonS latS timesS i
        = some { par_id := i
                 coords := (validTriples lonS latS timesS i).map
                   (fun z => (z.2.1, z.2.2))
                 time_start := ((validTriples lonS latS timesS i).head?.map
                   (fun z => z.1)).getD 0
                 time_end := ((validTriples lonS latS timesS i).getLast?.map
                   (fun z => z.1)).getD 0 } := by
    intro i hi
    have hnoskip : ¬ (((col lonS i).all fun v => v = none)
        || ((col latS i).all fun v => v = none)) = true := by
      intro hskip
      rcases Bool.or_eq_true_iff.mp hskip with hx | hy
      · rw [validTriples_nil_left hx] at hi
        simp at hi
      · rw [validTriples_nil_right hy] at hi
        simp at hi
    rw [trackFor]
    simp only
    rw [if_neg hnoskip, if_pos hi]
  constructor
  · rw [buildTracks, countP_filterMap_opt]
    have hsingle := countP_range_eq_single
      (fun i => (((trackFor lonS latS timesS i).map
        (fun tr => decide (tr.par_id = p))).getD false)) p nPart hp ?hg
    case hg =>
      intro i hi
      cases hfi : trackFor lonS latS timesS i with
      | none => simp [hfi] at hi
      | some tr =>
        simp [hfi] at hi
        rw [← trackFor_par_id hfi]
        exact hi
    rw [hsingle]
    by_cases hlen2 : 2 ≤ (validTriples lonS latS timesS p).length
    · simp only [hval p hlen2]
      simp [hlen2]
    · have hnone := trackFor_eq_none_iff.mpr
        (by omega : (validTriples lonS latS timesS p).length < 2)
      simp only [hnone]
      simp [hlen2]
  · intro tr htr hpidp
    rw [buildTracks] at htr
    obtain ⟨i, _, hfi⟩ := List.mem_filterMap.mp htr
    have hip : i = p := by rw [← trackFor_par_id hfi, hpidp]
    subst hip
    have hlen2 : 2 ≤ (validTriples lonS latS timesS i).length := by
      by_contra hn
      rw [trackFor_eq_none_iff.mpr (by omega)] at hfi
      exact Option.noConfusion hfi
    rw [hval i hlen2] at hfi
    have htr2 := Option.some.inj hfi
    obtain ⟨zf, hzf⟩ : ∃ zf, (validTriples lonS latS timesS i).head? = some zf := by
      cases htri : validTriples lonS latS timesS i with
      | nil => rw [htri] at hlen2; simp at hlen2
      | cons a t => exact ⟨a, rfl⟩
    obtain ⟨zl, hzl⟩ : ∃ zl, (validTriples lonS latS timesS i).getLast? = some zl := by
      have hne : validTriples lonS latS timesS i ≠ [] := by
        intro hnil
        rw [hnil] at hlen2
        simp at hlen2
      exact Option.isSome_iff_exists.mp (List.getLast?_isSome.mpr hne)
    refine ⟨hlen2, ?_, zf, zl, hzf, hzl, ?_, ?_⟩
    · rw [← htr2]
    · rw [← htr2]
      simp [hzf]
    · rw [← htr2]
      simp [hzl]

/-- C2 at the grids `lonT`/`latT`: particle 0 (two valid points) emits
exactly one track, particle 1 (one valid point) emits none. -/
theorem line_track_iff_witness :
    (buildTracks lonT latT timesT 2).countP (fun tr => tr.par_id = 0) = 1 ∧
    (buildTracks lonT latT timesT 2).countP (fun tr => tr.par_id = 1) = 0 ∧
    (validTriples lonT latT timesT 1).length = 1 := by
  refine ⟨?_, ?_, by decide⟩
  · rw [(line_track_iff lonT latT timesT 2 0 (by decide)).1]
    decide
  · rw [(line_track_iff lonT latT timesT 2 1 (by decide)).1]
    decide

/-- C3: point mode emits exactly one record per `(time, particle)` index
pair of the downsampled grid at which both coordinates are finite,
enumerated in row-major (time-major) order — the `np.where` scan equals
the filtered row-major product enumeration, which has no duplicate
pairs — with each record built by `mkPt` (particle id, timestamp,
coordinates).  Invalid pairs yield no record, and the number of records
of particle `p` is the number of its valid timesteps: a particle with
exactly one valid subsampled position yields exactly one record. -/
theorem point_records_spec (lonS latS : List (List FVal))
    (timesS : List ℤ) (p : ℕ) :
    pointRecords lonS latS timesS
      = (((List.range lonS.length).product
            (List.range (lonS.headD []).length)).filter
          (fun rc => validMask lonS latS rc.1 rc.2)).map
          (mkPt lonS latS timesS) ∧
    (∀ ti pi,
      (ti, pi) ∈ wherePairs lonS latS lonS.length (lonS.headD []).length
        ↔ ti < lonS.length ∧ pi < (lonS.headD []).length
            ∧ validMask lonS latS ti pi = true) ∧
    (wherePairs lonS latS lonS.length (lonS.headD []).length).Nodup ∧
    (p < (lonS.headD []).length →
      (pointRecords lonS latS timesS).countP (fun r => r.par_id = p)
        = (List.range lonS.length).countP
            (fun ti => validMask lonS latS ti p)) ∧
    (p < (lonS.headD []).length →
      (List.range lonS.length).countP (fun ti => validMask lonS latS ti p)
          = 1 →
      (pointRecords lonS latS timesS).countP (fun r => r.par_id = p)
        = 1) := by
  have hcount : p < (lonS.headD []).length →
      (pointRecords lonS latS timesS).countP (fun r => r.par_id = p)
        = (List.range lonS.length).countP
            (fun ti => validMask lonS latS ti p) := by
    intro hp
    rw [pointRecords, List.countP_map, wherePairs, List.countP_flatMap]
    rw [List.map_congr_left ?hrow, ← countP_eq_sum_ite]
    case hrow =>
      intro ti _
      simp only [Function.comp]
      rw [List.countP_map, List.countP_filter]
      rw [countP_range_eq_single _ p _ hp ?hone]
      case hone =>
        intro i hi
        simp only [Function.comp] at hi
        have := (Bool.and_eq_true _ _).mp hi
        simpa using this.1
      by_cases hv : validMask lonS latS ti p = true
      · simp [hv, mkPt]
      · simp [hv]
  refine ⟨?_, ?_, ?_, hcount, fun hp h1 => by rw [hcount hp, h1]⟩
  · rw [pointRecords, wherePairs_product]
  · intro ti pi
    simp only [wherePairs, List.mem_flatMap, List.mem_map, List.mem_filter,
      List.mem_range]
    constructor
    · rintro ⟨a, ha, b, ⟨hb, hv⟩, heq⟩
      cases heq
      exact ⟨ha, hb, hv⟩
    · rintro ⟨hti, hpi, hv⟩
      exact ⟨ti, hti, pi, ⟨hpi, hv⟩, rfl⟩
  · rw [wherePairs_product]
    exact List.Nodup.filter _
      (List.Nodup.product (List.nodup_range _) (List.nodup_range _))

/-- C3 at the grids `lonT`/`latT`: three valid pairs in row-major order;
particle 1, which has exactly one valid subsampled position, yields
exactly one record, and the invalid pair `(1, 1)` yields none. -/
theorem point_records_spec_witness :
    (pointRecords lonT latT timesT).countP (fun r => r.par_id = 1) = 1 ∧
    pointRecords lonT latT timesT
      = [⟨0, 0, 1, 5⟩, ⟨1, 0, 9, 8⟩, ⟨0, 3600, 2, 6⟩] :=
  ⟨(point_records_spec lonT latT timesT 1).2.2.2.2 (by decide) (by decide),
   by decide⟩

/-- A well-formed task never raises out of `process_task`: every failure
inside the conversion call is caught by the `try` block. -/
theorem process_task_wf_ok (runLine runPt : Conv) (t : JVal)
    (h : TaskWF t) : ∃ o, process_task runLine runPt t = Except.ok o := by
  obtain ⟨⟨fs, rfl⟩, hm⟩ := h
  rw [process_task]
  cases hmode : jget fs ("mode") with
  | none =>
    simp only [hmode, Option.getD_none]
    split
    · exact ⟨_, rfl⟩
    · split
      · cases runLine ((jget fs ("input_nc")).getD JVal.null)
          ((jget fs ("output_path")).getD JVal.null)
          ((jget fs ("downscale_hour")).getD (JVal.num 1)) with
        | ok _ => exact ⟨_, rfl⟩
        | error _ => exact ⟨_, rfl⟩
      · split
        · cases runPt ((jget fs ("input_nc")).getD JVal.null)
            ((jget fs ("output_path")).getD JVal.null)
            ((jget fs ("downscale_hour")).getD (JVal.num 1)) with
          | ok _ => exact ⟨_, rfl⟩
          | error _ => exact ⟨_, rfl⟩
        · exact ⟨_, rfl⟩
  | some v =>
    obtain ⟨ms, rfl⟩ := hm v (by simpa [modeField] using hmode)
    simp only [hmode, Option.getD_some]
    split
    · exact ⟨_, rfl⟩
    · split
      · cases runLine ((jget fs ("input_nc")).getD JVal.null)
          ((jget fs ("output_path")).getD JVal.null)
          ((jget fs ("downscale_hour")).getD (JVal.num 1)) with
        | ok _ => exact ⟨_, rfl⟩
        | error _ => exact ⟨_, rfl⟩
      · split
        · cases runPt ((jget fs ("input_nc")).getD JVal.null)
            ((jget fs ("output_path")).getD JVal.null)
            ((jget fs ("downscale_hour")).getD (JVal.num 1)) with
          | ok _ => exact ⟨_, rfl⟩
          | error _ => exact ⟨_, rfl⟩
        · exact ⟨_, rfl⟩

/-- `mapM` over tasks that all succeed returns one outcome per task. -/
theorem mapM_ok_of_forall {f : JVal → Except PyErr TaskOutcome} :
    ∀ (l : List JVal), (∀ t ∈ l, ∃ o, f t = Except.ok o) →
      ∃ outs, l.mapM f = Except.ok outs ∧ outs.length = l.length := by
  intro l
  induction l with
  | nil => exact fun _ => ⟨[], rfl, rfl⟩
  | cons a rest ih =>
    intro h
    obtain ⟨o, ho⟩ := h a (List.mem_cons_self a rest)
    obtain ⟨outs, houts, hlen⟩ :=
      ih (fun t ht => h t (List.mem_cons_of_mem a ht))
    refine ⟨o :: outs, ?_, by simp [hlen]⟩
    simp only [List.mapM_cons, ho, houts]
    rfl

/-- C8 counterexample: a syntactically valid JSON config whose single
task is the number `3` (not an object).  `task.get("input_nc")`
(`cli.py` line 11) raises `AttributeError` before the per-task `try`
block, the exception escapes `process_task`, and the run aborts instead
of continuing and exiting 0 — refuting the claim that any failure inside
a task is caught and the process exits 0 for every valid-JSON config. -/
theorem batch_abort_counterexample :
    mainRun okStub okStub (Except.ok (JVal.arr [JVal.num 3]))
      = Except.error PyErr.attributeError := by
  rfl

/-- C8 amended: a missing config file or malformed JSON (and only those)
exits with code 1; for a parsed config whose tasks are JSON objects with
string (or absent) `mode` fields, every failure inside a task —
task-definition error, input error, or any exception from the conversion
call — is caught and reported, processing continues with the next task,
and the process exits 0 with one recorded outcome per task.  (A task
that is not an object, or whose `mode` value is not a string, raises
`AttributeError` before the `try` block and aborts the run, see the
counterexample.) -/
theorem batch_isolation_amended (runLine runPt : Conv) (e : CfgErr)
    (j : JVal) (hwf : ∀ t ∈ extractTasks j, TaskWF t) :
    mainRun runLine runPt (Except.error e) = Except.ok (1, []) ∧
    ∃ outs, mainRun runLine runPt (Except.ok j) = Except.ok (0, outs) ∧
      outs.length = (extractTasks j).length := by
  refine ⟨rfl, ?_⟩
  obtain ⟨outs, ho, hl⟩ := mapM_ok_of_forall (extractTasks j)
    (fun t ht => process_task_wf_ok runLine runPt t (hwf t ht))
  exact ⟨outs, by rw [mainRun, ho]; rfl, hl⟩

/-- C8 amended at a concrete batch: a bad-JSON config exits 1; a config
with one complete task and one task missing `output_path` still
processes both tasks and exits 0. -/
theorem batch_isolation_amended_witness :
    mainRun okStub okStub (Except.error CfgErr.badJson)
      = Except.ok (1, []) ∧
    ∃ outs, mainRun okStub okStub (Except.ok (JVal.arr
        [JVal.obj [("input_nc", JVal.str ("a")),
                   ("output_path", JVal.str ("b"))],
         JVal.obj [("input_nc", JVal.str ("a"))]]))
      = Except.ok (0, outs) ∧
      outs.length = (extractTasks (JVal.arr
        [JVal.obj [("input_nc", JVal.str ("a")),
                   ("output_path", JVal.str ("b"))],
         JVal.obj [("input_nc", JVal.str ("a"))]])).length :=
  batch_isolation_amended okStub okStub CfgErr.badJson
    (JVal.arr [JVal.obj [("input_nc", JVal.str ("a")),
                         ("output_path", JVal.str ("b"))],
               JVal.obj [("input_nc", JVal.str ("a"))]])
    (by
      intro t ht
      simp only [extractTasks, List.mem_cons, List.not_mem_nil,
        or_false] at ht
      rcases ht with rfl | rfl
      · exact ⟨⟨_, rfl⟩, by intro v hv; simp [modeField, jget] at hv⟩
      · exact ⟨⟨_, rfl⟩, by intro v hv; simp [modeField, jget] at hv⟩)

end Partpost
